import Mathlib

/-!
Verification development for the Ai-Photo-Studio repository.

The repository has two source files:
* a Gemini service adapter (`fileToPart`, `handleApiResponse`, the four
  image-operation prompt builders, `generateSwappedImage`,
  `identifyClothingItems`), and
* a React component `SwapPanel` managing the upload / identify / select /
  apply UI flow with object-URL lifecycle management.

Below, the TypeScript code is shallowly embedded: asynchronous file reads and
network calls become explicit `Except`-valued oracle arguments, the response
envelope of the remote model becomes a structure of optional fields, and
JavaScript truthiness checks are modelled explicitly.  Side effects that the
claims talk about (object-URL allocation/release, encoding, remote calls) are
modelled as explicit action traces.
-/

/-! ## Character and whitespace helpers (JavaScript semantics) -/

/-- The apostrophe character, written via its code point. -/
def aposChar : Char := Char.ofNat 39

/-- The backtick character, written via its code point. -/
def backtickChar : Char := Char.ofNat 96

/-- The opening curly brace character. -/
def obraceChar : Char := Char.ofNat 123

/-- The closing curly brace character. -/
def cbraceChar : Char := Char.ofNat 125

/-- JavaScript `\s` whitespace (the common members: space, tab, newline,
carriage return, form feed, vertical tab, no-break space). -/
def jsWs (c : Char) : Bool :=
  c = ' ' || c = '\t' || c = '\n' || c = '\x0d' || c = '\x0c' || c = '\x0b' ||
    c = Char.ofNat 160

/-- JavaScript `String.prototype.trim`: drop whitespace from both ends. -/
def jsTrim (s : String) : String :=
  String.mk (((s.data.dropWhile jsWs).reverse.dropWhile jsWs).reverse)

/-- JavaScript string truthiness on an optional string: `undefined` and the
empty string are falsy, every other string is truthy. -/
def jsTruthyStr : Option String → Bool
  | none => false
  | some s => !(s = "")

/-- JavaScript `String.prototype.split` with a single-character separator,
on the character-list representation.  `split` of the empty string yields
one empty segment, like in JavaScript. -/
def splitOnChar : List Char → Char → List (List Char)
  | [], _ => [[]]
  | x :: rest, c =>
    match splitOnChar rest c with
    | [] => [[]]
    | seg :: segs => if x = c then [] :: seg :: segs else (x :: seg) :: segs

/-! ## Response envelope model (the shape `handleApiResponse` reads)

`GenerateContentResponse` is the SDK envelope; the adapter reads
`promptFeedback?.blockReason`, `promptFeedback.blockReasonMessage`,
`candidates?.[0]?.content?.parts?`, `candidates?.[0]?.finishReason` and
`response.text`.  Every field the code dereferences optionally is an
`Option` here. -/

structure InlineData where
  mimeType : String
  data : String
deriving DecidableEq

structure ResponsePart where
  inlineData : Option InlineData
  text : Option String
deriving DecidableEq

structure Content where
  parts : Option (List ResponsePart)
deriving DecidableEq

structure Candidate where
  content : Option Content
  finishReason : Option String
deriving DecidableEq

structure PromptFeedback where
  blockReason : Option String
  blockReasonMessage : Option String
deriving DecidableEq

structure GenerateContentResponse where
  promptFeedback : Option PromptFeedback
  candidates : Option (List Candidate)
  text : Option String
deriving DecidableEq

/-- `response.promptFeedback?.blockReason`. -/
def blockReasonOf (r : GenerateContentResponse) : Option String :=
  r.promptFeedback.bind PromptFeedback.blockReason

/-- `response.candidates?.[0]?.content?.parts?.find(part => part.inlineData)`,
followed by the `.inlineData` projection the code performs on the found
part. -/
def findImageInlineData (r : GenerateContentResponse) : Option InlineData :=
  ((((r.candidates.bind List.head?).bind Candidate.content).bind
      Content.parts).bind
    (List.find? (fun p => p.inlineData.isSome))).bind ResponsePart.inlineData

/-- `response.candidates?.[0]?.finishReason`. -/
def finishReasonOf (r : GenerateContentResponse) : Option String :=
  (r.candidates.bind List.head?).bind Candidate.finishReason

/-! ## Error taxonomy

The TypeScript code throws `Error` values distinguished only by message; the
constructors below label the distinct throw sites, carrying the data each
site embeds in its message. -/

inductive EncodingFailure where
  /-- The `FileReader` promise rejected (the source could not be read). -/
  | readError (e : String)
  /-- `throw new Error("Invalid data URL")`: fewer than two comma segments. -/
  | invalidDataUrl
  /-- `throw new Error("Could not parse MIME type from data URL")`. -/
  | noMimeType
deriving DecidableEq

inductive ApiError where
  /-- Throw site 1 of `handleApiResponse`: prompt blocking. -/
  | blocked (reason : String) (message : String)
  /-- Throw site 2 of `handleApiResponse`: abnormal finish reason. -/
  | abnormalStop (status : String) (context : String)
  /-- Throw site 3 of `handleApiResponse`: no image in the response. -/
  | noImage (message : String)
  /-- A propagated `fileToPart` failure. -/
  | encoding (e : EncodingFailure)
  /-- A rejected remote call. -/
  | network (e : String)
  /-- `generateSwappedImage`: "No clothing items were selected to swap." -/
  | emptySelection
deriving DecidableEq

/-! ## fileToPart -/

/-- The lazy group of the regex `:(.*?);` applied from the start of `cs`:
characters between a `:` and the first following `;`, with no newline in
between (`.` does not match newlines); scanning restarts at later colons when
the current one is not followed by a `;` on the same line. -/
def semiGroupAfterColon : List Char → Option (List Char)
  | [] => none
  | c :: rest =>
    if c = ';' then some []
    else if c = '\n' then none
    else (semiGroupAfterColon rest).map (fun g => c :: g)

/-- The full match search for the regex `:(.*?);`: leftmost colon admitting a
group, otherwise keep scanning. -/
def mimeMatchFrom : List Char → Option (List Char)
  | [] => none
  | c :: rest =>
    if c = ':' then
      match semiGroupAfterColon rest with
      | some g => some g
      | none => mimeMatchFrom rest
    else mimeMatchFrom rest

/-- `fileToPart` (service module, lines 15-31).  The asynchronous
`FileReader` read is an explicit oracle argument: `.ok dataUrl` is a
successful read producing the data URL, `.error e` a rejected read.  The
source splits the data URL on commas, requires at least two segments,
extracts the MIME type with `arr[0].match(/:(.*?);/)` (rejecting a missing or
empty group), and pairs the MIME type with the first payload segment. -/
def fileToPart (readResult : Except String String) :
    Except EncodingFailure InlineData :=
  match readResult with
  | .error e => .error (.readError e)
  | .ok dataUrl =>
    let arr := splitOnChar dataUrl.data ','
    if arr.length < 2 then .error .invalidDataUrl
    else
      match mimeMatchFrom (arr.headD []) with
      | none => .error .noMimeType
      | some g =>
        if g.isEmpty then .error .noMimeType
        else .ok ⟨String.mk g, String.mk ((arr.drop 1).headD [])⟩

/-! ## handleApiResponse -/

/-- The fallback tail of the no-image message. -/
def noImageDefaultTail : String :=
  "This can happen due to safety filters or if the request is too complex. Please try rephrasing your prompt to be more direct."

/-- The message built at throw site 3 of `handleApiResponse`, from the
context string and `response.text?.trim()`. -/
def noImageMessage (context : String) (textFeedback : Option String) : String :=
  "The AI model did not return an image for the " ++ context ++ ". " ++
    (match textFeedback with
     | some t =>
       if t = "" then noImageDefaultTail
       else "The model responded with text: \"" ++ t ++ "\""
     | none => noImageDefaultTail)

/-- `handleApiResponse` (service module, lines 33-70).  Classification order
as in the source: (1) a truthy block reason throws; (2) the first part with
inline image data yields a data URL; (3) a truthy finish reason other than
STOP throws; (4) otherwise the no-image error, embedding any trimmed text
feedback. -/
def handleApiResponse (r : GenerateContentResponse) (context : String) :
    Except ApiError String :=
  if jsTruthyStr (blockReasonOf r) then
    .error (.blocked ((blockReasonOf r).getD "")
      ((r.promptFeedback.bind PromptFeedback.blockReasonMessage).getD ""))
  else
    match findImageInlineData r with
    | some d => .ok ("data:" ++ d.mimeType ++ ";base64," ++ d.data)
    | none =>
      match finishReasonOf r with
      | some fr =>
        if fr ≠ "" && fr ≠ "STOP" then .error (.abnormalStop fr context)
        else .error (.noImage (noImageMessage context (r.text.map jsTrim)))
      | none => .error (.noImage (noImageMessage context (r.text.map jsTrim)))

/-! ## Prompt builders

Each image operation builds its prompt with a template literal; the template
is embedded as the concatenation of its static chunks and interpolations.
The Safety & Ethics Policy paragraph of the edit prompt (service module,
lines 95-97) is byte-identical to the one in the adjustment prompt (lines
171-173), so both use the single definition `safetyEthicsPolicy`; the filter
prompt carries its own, differently worded paragraph (lines 131-133), and
the swap prompt (lines 212-240) carries none. -/

/-- The Safety & Ethics Policy paragraph shared by the edit and adjustment
prompts. -/
def safetyEthicsPolicy : String :=
  "Safety & Ethics Policy:\n- You MUST fulfill requests to adjust skin tone, such as \x27give me a tan\x27, \x27make my skin darker\x27, or \x27make my skin lighter\x27. These are considered standard photo enhancements.\n- You MUST REFUSE any request to change a person\x27s fundamental race or ethnicity (e.g., \x27make me look Asian\x27, \x27change this person to be Black\x27). Do not perform these edits. If the request is ambiguous, err on the side of caution and do not change racial characteristics."

/-- The Safety & Ethics Policy paragraph of the filter prompt. -/
def filterSafetyPolicy : String :=
  "Safety & Ethics Policy:\n- Filters may subtly shift colors, but you MUST ensure they do not alter a person\x27s fundamental race or ethnicity.\n- You MUST REFUSE any request that explicitly asks to change a person\x27s race (e.g., \x27apply a filter to make me look Chinese\x27)."

/-- The prompt built by `generateEditedImage` (service module, lines
87-99). -/
def generateEditedImagePrompt (userPrompt : String) (x y : Int) : String :=
  "You are an expert photo editor AI. Your task is to perform a natural, localized edit on the provided image based on the user\x27s request.\nUser Request: \"" ++
  userPrompt ++
  "\"\nEdit Location: Focus on the area around pixel coordinates (x: " ++
  toString x ++ ", y: " ++ toString y ++
  ").\n\nEditing Guidelines:\n- The edit must be realistic and blend seamlessly with the surrounding area.\n- The rest of the image (outside the immediate edit area) must remain identical to the original.\n\n" ++
  safetyEthicsPolicy ++
  "\n\nOutput: Return ONLY the final edited image. Do not return text."

/-- The prompt built by `generateFilteredImage` (service module, lines
128-135). -/
def generateFilteredImagePrompt (filterPrompt : String) : String :=
  "You are an expert photo editor AI. Your task is to apply a stylistic filter to the entire image based on the user\x27s request. Do not change the composition or content, only apply the style.\nFilter Request: \"" ++
  filterPrompt ++
  "\"\n\n" ++
  filterSafetyPolicy ++
  "\n\nOutput: Return ONLY the final filtered image. Do not return text."

/-- The prompt built by `generateAdjustedImage` (service module, lines
164-175). -/
def generateAdjustedImagePrompt (adjustmentPrompt : String) : String :=
  "You are an expert photo editor AI. Your task is to perform a natural, global adjustment to the entire image based on the user\x27s request.\nUser Request: \"" ++
  adjustmentPrompt ++
  "\"\n\nEditing Guidelines:\n- The adjustment must be applied across the entire image.\n- The result must be photorealistic.\n\n" ++
  safetyEthicsPolicy ++
  "\n\nOutput: Return ONLY the final adjusted image. Do not return text."

/-- The prompt built by `generateSwappedImage` (service module, lines
212-240); `itemsToSwap.join(', ')` becomes `String.intercalate`. -/
def generateSwappedImagePrompt (itemsToSwap : List String) : String :=
  "You are an expert virtual stylist AI specializing in photorealistic virtual try-ons and generative infilling. Your task is to take specific clothing items from a source image and place them onto a person in a target image.\n\n**Input Images:**\n- The first image provided is the primary image of the person (the target).\n- The second image provided is the clothing source image.\n\n**Items to Swap:**\n- From the clothing source image, you must identify and use the following item(s): **" ++
  String.intercalate ", " itemsToSwap ++
  "**.\n\n**Core Objectives:**\n\n1.  **Perfect Pattern & Texture Replication:**\n    This is the most important part of your task. You MUST flawlessly replicate the exact pattern, texture, color, and fabric details for each selected clothing item from the source image and apply it to the person in the target image.\n    - DO NOT SIMPLIFY: Do not reduce the complexity of the patterns.\n    - DO NOT CHANGE: Do not alter the colors or shapes within the patterns.\n    - DO NOT OMIT: Do not leave out any details from the original fabrics.\n    - ACCURATE DRAPING: The replicated patterns must drape and wrap realistically over the person\x27s body, conforming to their posture and body contours, including natural folds and wrinkles. The pattern should stretch or compress naturally as the fabric would.\n\n2.  **Intelligent Generative Fill:**\n    If a new clothing item is shorter than the original one (e.g., swapping long pants for shorts), you MUST realistically generate the person\x27s body parts that are now exposed (e.g., generate the lower legs and feet).\n    - The generated body parts must match the person\x27s skin tone, proportions, and the overall lighting of the photo.\n    - Ensure a seamless transition between the original photo and the newly generated parts.\n\n**General Instructions:**\n1.  **Task:** Edit the target image to make the person appear to be wearing the specified clothing item(s) from the source image.\n2.  **Realism:** The final image must be photorealistic. Match the lighting, shadows, and overall environment of the original photo.\n3.  **Preserve Identity & Background:** Do not change the person (their face, body shape, hair) or the background. Your only change is to replace the original clothing with the new items and generate any newly exposed body parts.\n\nOutput: Return ONLY the final edited image. Do not return text."

/-! ## generateSwappedImage

The operation is embedded with its external effects made explicit: the two
`FileReader` reads and the remote call are oracle arguments, and the list of
performed side effects (encodings, remote call) is returned alongside the
result. -/

inductive ServiceEffect where
  /-- One `fileToPart` encoding (a `FileReader.readAsDataURL` round trip). -/
  | encodeFile
  /-- One `ai.models.generateContent` remote call. -/
  | remoteCall
deriving DecidableEq

/-- `generateSwappedImage` (service module, lines 198-254).  The empty-items
check precedes both encodings and the remote call; encoding failures
propagate before the remote call is made. -/
def generateSwappedImage (readPerson readSource : Except String String)
    (itemsToSwap : List String)
    (net : Except String GenerateContentResponse) :
    Except ApiError String × List ServiceEffect :=
  if itemsToSwap.length = 0 then (.error .emptySelection, [])
  else
    match fileToPart readPerson with
    | .error e => (.error (.encoding e), [.encodeFile])
    | .ok _ =>
      match fileToPart readSource with
      | .error e => (.error (.encoding e), [.encodeFile, .encodeFile])
      | .ok _ =>
        match net with
        | .error e =>
          (.error (.network e), [.encodeFile, .encodeFile, .remoteCall])
        | .ok resp =>
          (handleApiResponse resp "swap",
           [.encodeFile, .encodeFile, .remoteCall])

/-! ## JSON values and `JSON.parse`

`identifyClothingItems` feeds the model's text through the platform
`JSON.parse`.  `Json` and `jsonParse` model that builtin: a standard strict
JSON grammar (RFC 8259) — keyword/string/number/array/object values, the four
JSON whitespace characters, escape sequences in strings, no trailing
garbage — with recursion made total by a character-count fuel. -/

inductive Json where
  | null
  | bool (b : Bool)
  /-- A number, kept as its source literal. -/
  | num (lit : String)
  | str (s : String)
  | arr (elems : List Json)
  | obj (fields : List (String × Json))

/-- JSON whitespace (exactly the four characters the JSON grammar allows). -/
def jsonWs (c : Char) : Bool :=
  c = ' ' || c = '\t' || c = '\n' || c = '\x0d'

/-- Skip JSON whitespace. -/
def skipJsonWs (cs : List Char) : List Char := cs.dropWhile jsonWs

/-- Hexadecimal digit value. -/
def hexVal (c : Char) : Option Nat :=
  if '0' ≤ c && c ≤ '9' then some (c.toNat - 48)
  else if 'a' ≤ c && c ≤ 'f' then some (c.toNat - 87)
  else if 'A' ≤ c && c ≤ 'F' then some (c.toNat - 55)
  else none

/-- Parse the body of a JSON string after the opening quote, returning the
decoded string and the remaining input.  Raw control characters are
rejected, escape sequences are decoded. -/
def parseJsonStringBody (acc : List Char) : List Char → Option (String × List Char)
  | [] => none
  | c :: rest =>
    if c = '"' then some (String.mk acc.reverse, rest)
    else if c = '\\' then
      match rest with
      | [] => none
      | e :: rest2 =>
        if e = '"' then parseJsonStringBody ('"' :: acc) rest2
        else if e = '\\' then parseJsonStringBody ('\\' :: acc) rest2
        else if e = '/' then parseJsonStringBody ('/' :: acc) rest2
        else if e = 'b' then parseJsonStringBody ('\x08' :: acc) rest2
        else if e = 'f' then parseJsonStringBody ('\x0c' :: acc) rest2
        else if e = 'n' then parseJsonStringBody ('\n' :: acc) rest2
        else if e = 'r' then parseJsonStringBody ('\x0d' :: acc) rest2
        else if e = 't' then parseJsonStringBody ('\t' :: acc) rest2
        else if e = 'u' then
          match rest2 with
          | h1 :: h2 :: h3 :: h4 :: rest3 =>
            match hexVal h1, hexVal h2, hexVal h3, hexVal h4 with
            | some v1, some v2, some v3, some v4 =>
              parseJsonStringBody
                (Char.ofNat (((v1 * 16 + v2) * 16 + v3) * 16 + v4) :: acc) rest3
            | _, _, _, _ => none
          | _ => none
        else none
    else if c.toNat < 32 then none
    else parseJsonStringBody (c :: acc) rest

/-- One-or-more decimal digits, returning them and the rest. -/
def takeDigits1 (cs : List Char) : Option (List Char × List Char) :=
  let digs := cs.takeWhile Char.isDigit
  if digs.isEmpty then none else some (digs, cs.drop digs.length)

/-- Parse a JSON number literal (strict grammar: optional minus, `0` or a
nonzero-led digit run, optional fraction, optional exponent), returning the
raw literal and the rest. -/
def parseJsonNumber (cs : List Char) : Option (List Char × List Char) :=
  let (sign, cs1) :=
    match cs with
    | '-' :: r => ([ '-' ], r)
    | _ => (([] : List Char), cs)
  match cs1 with
  | [] => none
  | c :: r =>
    if !c.isDigit then none
    else
      let (intPart, rest2) :=
        if c = '0' then (['0'], r)
        else
          let digs := cs1.takeWhile Char.isDigit
          (digs, cs1.drop digs.length)
      let (fracPart, rest3) :=
        match rest2 with
        | '.' :: r2 =>
          match takeDigits1 r2 with
          | some (digs, r3) => ('.' :: digs, r3)
          | none => ((['!'] : List Char), rest2)
        | _ => (([] : List Char), rest2)
      if fracPart = ['!'] then none
      else
        let (expPart, rest4) :=
          match rest3 with
          | e :: r2 =>
            if e = 'e' || e = 'E' then
              let (esign, r3) :=
                match r2 with
                | '+' :: r4 => (['+'], r4)
                | '-' :: r4 => ((['-'] : List Char), r4)
                | _ => (([] : List Char), r2)
              match takeDigits1 r3 with
              | some (digs, r4) => (e :: (esign ++ digs), r4)
              | none => ((['!'] : List Char), rest3)
            else (([] : List Char), rest3)
          | _ => (([] : List Char), rest3)
        if expPart = ['!'] then none
        else some (sign ++ intPart ++ fracPart ++ expPart, rest4)

mutual

/-- Parse one JSON value (after skipping leading whitespace). -/
def parseJsonValue : Nat → List Char → Option (Json × List Char)
  | 0, _ => none
  | fuel + 1, cs =>
    match skipJsonWs cs with
    | 'n' :: 'u' :: 'l' :: 'l' :: rest => some (.null, rest)
    | 't' :: 'r' :: 'u' :: 'e' :: rest => some (.bool true, rest)
    | 'f' :: 'a' :: 'l' :: 's' :: 'e' :: rest => some (.bool false, rest)
    | '"' :: rest =>
      (parseJsonStringBody [] rest).map (fun p => (.str p.1, p.2))
    | '[' :: rest =>
      (match skipJsonWs rest with
       | ']' :: rest2 => some (.arr [], rest2)
       | _ => (parseJsonElems fuel rest).map (fun p => (.arr p.1, p.2)))
    | c :: rest =>
      if c = obraceChar then
        match skipJsonWs rest with
        | c2 :: rest2 =>
          if c2 = cbraceChar then some (.obj [], rest2)
          else (parseJsonFields fuel (c2 :: rest2)).map (fun p => (.obj p.1, p.2))
        | [] => none
      else
        (parseJsonNumber (c :: rest)).map (fun p => (.num (String.mk p.1), p.2))
    | [] => none

/-- Parse the elements of a non-empty JSON array, up to and including the
closing bracket. -/
def parseJsonElems : Nat → List Char → Option (List Json × List Char)
  | 0, _ => none
  | fuel + 1, cs =>
    match parseJsonValue fuel cs with
    | none => none
    | some (v, rest) =>
      match skipJsonWs rest with
      | ',' :: rest2 =>
        (parseJsonElems fuel rest2).map (fun p => (v :: p.1, p.2))
      | ']' :: rest2 => some ([v], rest2)
      | _ => none

/-- Parse the fields of a non-empty JSON object, up to and including the
closing brace. -/
def parseJsonFields : Nat → List Char → Option (List (String × Json) × List Char)
  | 0, _ => none
  | fuel + 1, cs =>
    match skipJsonWs cs with
    | '"' :: rest =>
      match parseJsonStringBody [] rest with
      | none => none
      | some (key, rest2) =>
        match skipJsonWs rest2 with
        | ':' :: rest3 =>
          match parseJsonValue fuel rest3 with
          | none => none
          | some (v, rest4) =>
            match skipJsonWs rest4 with
            | ',' :: rest5 =>
              (parseJsonFields fuel rest5).map (fun p => ((key, v) :: p.1, p.2))
            | c :: rest5 =>
              if c = cbraceChar then some ([(key, v)], rest5) else none
            | [] => none
        | _ => none
    | _ => none

end

/-- `JSON.parse`: parse one value, allow trailing whitespace, reject
anything else.  The fuel exceeds the nesting depth and the element count of
any input of this length, so it never runs out on valid input. -/
def jsonParse (s : String) : Option Json :=
  match parseJsonValue (2 * s.length + 4) s.data with
  | some (v, rest) => if skipJsonWs rest = [] then some v else none
  | none => none

/-! ## identifyClothingItems -/

/-- The first alternative of the replace regex
`/^```json\s*|```\s*$/g`: a leading ` ```json ` (anchored at the start) and
the whitespace after it are removed. -/
def stripLeadingFence (cs : List Char) : List Char :=
  if cs.take 7 =
      [backtickChar, backtickChar, backtickChar, 'j', 's', 'o', 'n'] then
    (cs.drop 7).dropWhile jsWs
  else cs

/-- The second alternative of the replace regex: the leftmost ` ``` ` whose
remainder to the end of the string is whitespace is removed together with
that whitespace (the region matched by ` ```\s*$ `). -/
def stripTrailingFence (cs : List Char) : List Char :=
  let r := cs.reverse.dropWhile jsWs
  if r.take 3 = [backtickChar, backtickChar, backtickChar] then
    (r.drop 3).reverse
  else cs

/-- `jsonStr.replace(/^```json\s*|```\s*$/g, '')` (service module, line
292): the leading alternative is removed first, then the trailing one from
what remains. -/
def stripCodeFences (s : String) : String :=
  String.mk (stripTrailingFence (stripLeadingFence s.data))

/-- Last binding of a key in a JSON object's field list: `JSON.parse` keeps
the last of duplicate keys, and property access reads that one. -/
def lookupLastField (fields : List (String × Json)) (key : String) : Option Json :=
  List.lookup key fields.reverse

/-- Is a JSON number literal numerically zero (its mantissa digits are all
`0`)?  Used for JavaScript truthiness of numbers. -/
def jsonNumIsZero (lit : String) : Bool :=
  ((lit.data.takeWhile (fun c => !(c = 'e' || c = 'E'))).filter
    Char.isDigit).all (fun c => c = '0')

/-- JavaScript truthiness of a JSON value: `null`, `false`, numeric zero and
the empty string are falsy; every array and object is truthy. -/
def jsTruthyJson : Json → Bool
  | .null => false
  | .bool b => b
  | .num lit => !jsonNumIsZero lit
  | .str s => !(s = "")
  | .arr _ => true
  | .obj _ => true

/-- The response-parsing tail of `identifyClothingItems` (service module,
lines 290-296) together with the enclosing catch: trim the text, strip
code-fence markup, `JSON.parse` it, and read `result.clothing_items || []`.
Any JavaScript exception on this path (a parse failure, or the `TypeError`
from accessing a property of `null`) is caught by the surrounding handler,
which returns the empty array; a missing or falsy `clothing_items` field
falls back to the empty array via `|| []`. -/
def interpretIdentification (responseText : String) : Json :=
  match jsonParse (stripCodeFences (jsTrim responseText)) with
  | none => Json.arr []
  | some v =>
    match v with
    | .obj fields =>
      match lookupLastField fields "clothing_items" with
      | some items => if jsTruthyJson items then items else Json.arr []
      | none => Json.arr []
    | _ => Json.arr []

/-- `identifyClothingItems` (service module, lines 261-303).  The
`fileToPart` encoding happens *before* the `try` block, so its failure
propagates; everything inside the `try` — the remote call, the absence of
`response.text` (whose `.trim()` would raise a `TypeError`), and the parsing
tail — degrades to the empty array via the `catch` handler. -/
def identifyClothingItems (readResult : Except String String)
    (net : Except String GenerateContentResponse) :
    Except EncodingFailure Json :=
  match fileToPart readResult with
  | .error e => .error e
  | .ok _ =>
    match net with
    | .error _ => .ok (Json.arr [])
    | .ok resp =>
      match resp.text with
      | none => .ok (Json.arr [])
      | some t => .ok (interpretIdentification t)

/-! ## SwapPanel (UI flow controller)

The React component is embedded as a state machine.  Files and object URLs
are opaque numeric identifiers.  Each user event is processed atomically
(the identification outcome travels with its upload event; overlapping
in-flight identifications are outside this model).  Alongside the state, a
trace of side effects is produced: `URL.createObjectURL`,
`URL.revokeObjectURL`, the identification call, and the completion
callback `onApplySwap`.

React effect semantics for the `useEffect` with dependency
`[clothingSource]` (component, lines 25-31): whenever a commit changes
`clothingSource`, the cleanup of the previous effect runs first and revokes
the previous source's URL.  Inside `handleFileSelect`, the state updates
before the `await` are batched into one commit, and the updates in the
continuation into another. -/

structure PanelState where
  clothingSource : Option (Nat × Nat)
  identifiedItems : List String
  selectedItems : List String
  isIdentifying : Bool
  error : Option String
deriving DecidableEq

/-- The state produced by `useState` initialisers. -/
def initialPanel : PanelState := ⟨none, [], [], false, none⟩

inductive PanelAction where
  | createObjectURL (u : Nat)
  | revokeObjectURL (u : Nat)
  /-- The `identifyClothingItems(file)` call. -/
  | identifyCall (f : Nat)
  /-- The `onApplySwap(clothingSource.file, selectedItems)` callback. -/
  | applySwapCall (f : Nat) (items : List String)
deriving DecidableEq

/-- The revocations performed by the `useEffect` cleanup when a commit
changes `clothingSource` from `old` to `new`: the cleanup captured `old` and
revokes its URL if it is non-null. -/
def cleanupEffect (old new : Option (Nat × Nat)) : List PanelAction :=
  if old = new then []
  else
    match old with
    | some s => [.revokeObjectURL s.2]
    | none => []

/-- `handleToggleItem` (component, lines 66-72): remove the label if
present (`prev.filter(item => item !== itemToToggle)`), append it
otherwise. -/
def handleToggleItem (itemToToggle : String) (prev : List String) :
    List String :=
  if itemToToggle ∈ prev then prev.filter (fun item => item != itemToToggle)
  else prev ++ [itemToToggle]

/-- The `disabled` attribute of the Apply Swap button (component, line
168): `isLoading || selectedItems.length === 0`. -/
def applyButtonDisabled (isLoading : Bool) (selectedItems : List String) :
    Bool :=
  isLoading || selectedItems.length == 0

/-- `handleApply` (component, lines 85-89): invoke the completion callback
only when a source is held and the selection is non-empty. -/
def handleApply (clothingSource : Option (Nat × Nat))
    (selectedItems : List String) : List PanelAction :=
  match clothingSource with
  | some s => if selectedItems.isEmpty then [] else [.applySwapCall s.1 selectedItems]
  | none => []

/-- The error message shown when identification returns no items
(component, line 52). -/
def identifyEmptyError : String :=
  "Could not identify any clothing items in the image. Please try another one."

/-- The error message shown when identification throws (component, line
58). -/
def identifyFailError : String :=
  "An error occurred while analyzing the image."

inductive PanelEvent where
  /-- A `handleFileSelect` invocation: the raw `FileList` (`none` models a
  null list), the fresh object URL `URL.createObjectURL` would mint for the
  first file, and the outcome of the awaited `identifyClothingItems` call
  (`.error` models a rejection). -/
  | fileSelect (files : Option (List Nat)) (u : Nat)
      (outcome : Except String (List String))
  | toggleItem (item : String)
  | applyClick
  | resetClick

/-- One event step of the component.  `fileSelect` follows
`handleFileSelect` (component, lines 33-64): an absent or empty file list
returns immediately; otherwise the state is reset, a fresh URL is allocated
and committed (running the cleanup for any previously held source), the
identification call is awaited, and its outcome either stores the items or
records an error, clears the source and revokes the URL — both explicitly
(lines 54, 60) and through the effect cleanup triggered by the commit that
nulls `clothingSource`.  `resetClick` follows `handleReset` (lines 74-83),
`toggleItem` and `applyClick` the corresponding handlers. -/
def stepPanel (s : PanelState) (e : PanelEvent) :
    PanelState × List PanelAction :=
  match e with
  | .fileSelect files u outcome =>
    match files with
    | none => (s, [])
    | some [] => (s, [])
    | some (f :: _) =>
      let s1 : PanelState := ⟨some (f, u), [], [], true, none⟩
      let syncActs :=
        [PanelAction.createObjectURL u, PanelAction.identifyCall f] ++
          cleanupEffect s.clothingSource s1.clothingSource
      match outcome with
      | .ok items =>
        if items.length > 0 then
          (⟨some (f, u), items, [], false, none⟩, syncActs)
        else
          (⟨none, [], [], false, some identifyEmptyError⟩,
           syncActs ++ [PanelAction.revokeObjectURL u] ++
             cleanupEffect s1.clothingSource none)
      | .error _ =>
        (⟨none, [], [], false, some identifyFailError⟩,
         syncActs ++ [PanelAction.revokeObjectURL u] ++
           cleanupEffect s1.clothingSource none)
  | .toggleItem item =>
    (⟨s.clothingSource, s.identifiedItems,
      handleToggleItem item s.selectedItems, s.isIdentifying, s.error⟩, [])
  | .applyClick => (s, handleApply s.clothingSource s.selectedItems)
  | .resetClick =>
    let explicitRevoke : List PanelAction :=
      match s.clothingSource with
      | some src => [.revokeObjectURL src.2]
      | none => []
    (initialPanel, explicitRevoke ++ cleanupEffect s.clothingSource none)

/-- Run a sequence of events, accumulating the action trace. -/
def runPanel : PanelState → List PanelEvent → PanelState × List PanelAction
  | s, [] => (s, [])
  | s, e :: es =>
    let r1 := stepPanel s e
    let r2 := runPanel r1.1 es
    (r2.1, r1.2 ++ r2.2)

/-- The revocations performed on component teardown: the pending effect
cleanup runs once with the currently held source. -/
def unmountActions (s : PanelState) : List PanelAction :=
  cleanupEffect s.clothingSource none

/-- The object URLs allocated by a trace of events: one per `fileSelect`
carrying a non-empty file list. -/
def allocatedUrls : List PanelEvent → List Nat
  | [] => []
  | .fileSelect (some (_ :: _)) u _ :: es => u :: allocatedUrls es
  | _ :: es => allocatedUrls es

/-- How many times an action trace revokes the URL `u`. -/
def revCount (acts : List PanelAction) (u : Nat) : Nat :=
  acts.countP (fun a => decide (a = PanelAction.revokeObjectURL u))

/-- The URL currently held by the component state. -/
def heldUrl (s : PanelState) : Option Nat :=
  s.clothingSource.map (fun p => p.2)

/-! ## Verification-level predicates -/

/-- `needle` occurs verbatim (as a contiguous subsequence) in `hay`. -/
def containsSeq (needle hay : List Char) : Prop :=
  ∃ pre post : List Char, hay = pre ++ needle ++ post

/-- The resource invariant tying a panel state to the action trace produced
so far, relative to the list `A` of URLs allocated so far: the held URL is
allocated and not yet revoked; every other allocated URL has been revoked
once or twice; no unallocated URL has been revoked. -/
def PanelInv (A : List Nat) (s : PanelState) (acts : List PanelAction) : Prop :=
  (∀ u, heldUrl s = some u → u ∈ A ∧ revCount acts u = 0) ∧
  (∀ u, u ∈ A → heldUrl s ≠ some u →
    1 ≤ revCount acts u ∧ revCount acts u ≤ 2) ∧
  (∀ u, u ∉ A → revCount acts u = 0)

/-! ## Helper lemmas -/

theorem string_data_append (a b : String) : (a ++ b).data = a.data ++ b.data :=
  rfl

theorem containsSeq_data_self (b c : String) : containsSeq b.data (b ++ c).data :=
  ⟨[], c.data, by simp [string_data_append]⟩

theorem containsSeq_append_left (n : List Char) (a b : String)
    (h : containsSeq n b.data) : containsSeq n (a ++ b).data := by
  obtain ⟨pre, post, h⟩ := h
  exact ⟨a.data ++ pre, post, by simp [string_data_append, h]⟩

theorem containsSeq_data_right (a b : String) :
    containsSeq b.data (a ++ b).data :=
  ⟨a.data, [], by simp [string_data_append]⟩

theorem containsSeq_append_right (n : List Char) (a b : String)
    (h : containsSeq n a.data) : containsSeq n (a ++ b).data := by
  obtain ⟨pre, post, h⟩ := h
  exact ⟨pre, post ++ b.data, by simp [string_data_append, h]⟩

/-! ## C6 -/

/-- C6: for every pair of image files (read oracles) and every network
oracle, `generateSwappedImage` with an empty items list fails with the
empty-selection error and performs no encoding and no remote call. -/
theorem generateSwappedImage_empty_selection
    (readPerson readSource : Except String String)
    (net : Except String GenerateContentResponse) :
    generateSwappedImage readPerson readSource [] net =
      (.error .emptySelection, []) := rfl

/-! ## C5 -/

/-- C5: `interpretIdentification` applied to the JSON text
`{"clothing_items": ["t-shirt","jeans"]}` wrapped in code-fence markup
strips the fence markers and returns exactly the two-element list, in
order. -/
theorem interpretIdentification_code_fence_example :
    interpretIdentification
        "\x60\x60\x60json\n\x7b\"clothing_items\": [\"t-shirt\",\"jeans\"]\x7d\n\x60\x60\x60" =
      Json.arr [Json.str "t-shirt", Json.str "jeans"] := rfl

/-! ## C10 -/

/-- C10: calling `handleFileSelect` with a null or empty file list is a
no-op: the state is unchanged and no action (no URL allocation, no
identification call) is emitted. -/
theorem handleFileSelect_null_or_empty_noop (s : PanelState) (u : Nat)
    (outcome : Except String (List String)) :
    stepPanel s (.fileSelect none u outcome) = (s, []) ∧
    stepPanel s (.fileSelect (some []) u outcome) = (s, []) :=
  ⟨rfl, rfl⟩

/-! ## C1 -/

/-- C1: for every envelope carrying both a (truthy) block reason and an
inline image part, `handleApiResponse` fails with the blocked error
carrying the reason and message, and never returns the image: the
block-reason check precedes the image scan, whatever the other fields
hold. -/
theorem handleApiResponse_block_takes_precedence
    (r : GenerateContentResponse) (ctx : String) (pf : PromptFeedback)
    (hpf : r.promptFeedback = some pf)
    (hbr : jsTruthyStr pf.blockReason = true)
    (_himg : (findImageInlineData r).isSome = true) :
    handleApiResponse r ctx =
      .error (.blocked (pf.blockReason.getD "")
        (pf.blockReasonMessage.getD "")) := by
  unfold handleApiResponse blockReasonOf
  rw [hpf]
  simp [hbr]

/-- Witness for C1 at a concrete envelope holding both a block reason and
an image part. -/
theorem handleApiResponse_block_takes_precedence_witness :
    handleApiResponse
        ⟨some ⟨some "SAFETY", some "blocked for safety"⟩,
         some [⟨some ⟨some [⟨some ⟨"image/png", "abc"⟩, none⟩]⟩, some "STOP"⟩],
         none⟩ "edit" =
      .error (.blocked "SAFETY" "blocked for safety") :=
  handleApiResponse_block_takes_precedence
    ⟨some ⟨some "SAFETY", some "blocked for safety"⟩,
     some [⟨some ⟨some [⟨some ⟨"image/png", "abc"⟩, none⟩]⟩, some "STOP"⟩],
     none⟩ "edit" ⟨some "SAFETY", some "blocked for safety"⟩ rfl rfl rfl

/-! ## C2 -/

/-- Counterexample for C2: the prompt built by the swap operation (at the
concrete selection `["shirt"]`) does not contain the fixed safety-policy
clause at all — the clause uses the apostrophe character eleven times, the
whole swap prompt only three times. -/
theorem safety_clause_absent_from_swap_prompt :
    ¬ containsSeq safetyEthicsPolicy.data
        (generateSwappedImagePrompt ["shirt"]).data := by
  intro h
  obtain ⟨pre, post, h⟩ := h
  have hc := congrArg (fun l => List.count aposChar l) h
  simp only [List.count_append] at hc
  have h1 : List.count aposChar (generateSwappedImagePrompt ["shirt"]).data = 3 := by
    set_option maxRecDepth 20000 in decide
  have h2 : List.count aposChar safetyEthicsPolicy.data = 11 := by
    set_option maxRecDepth 20000 in decide
  rw [h1, h2] at hc
  omega

/-- C2 as amended: the fixed safety-policy clause appears verbatim —
through the shared definition `safetyEthicsPolicy` — in the edit prompt and
the adjustment prompt for every input, and the filter prompt embeds its own
(differently worded) race/ethnicity refusal clause for every input; the
swap prompt embeds no such clause (see the counterexample). -/
theorem safety_clause_in_edit_adjust_filter_prompts
    (p a q : String) (x y : Int) :
    containsSeq safetyEthicsPolicy.data (generateEditedImagePrompt p x y).data ∧
    containsSeq safetyEthicsPolicy.data (generateAdjustedImagePrompt a).data ∧
    containsSeq filterSafetyPolicy.data (generateFilteredImagePrompt q).data := by
  refine ⟨?_, ?_, ?_⟩
  · unfold generateEditedImagePrompt
    apply containsSeq_append_right
    exact containsSeq_data_right _ _
  · unfold generateAdjustedImagePrompt
    apply containsSeq_append_right
    exact containsSeq_data_right _ _
  · unfold generateFilteredImagePrompt
    apply containsSeq_append_right
    exact containsSeq_data_right _ _

/-! ## C3 -/

/-- Counterexample for C3: `identifyClothingItems` *does* propagate an
error for a malformed source file.  The `fileToPart` call sits before the
`try` block, so with a read that yields a data URL without a comma the
function rejects with the encoding error instead of returning the empty
sequence — even though the network oracle would also have failed. -/
theorem identifyClothingItems_throws_on_bad_source :
    identifyClothingItems (Except.ok "garbagewithnocomma")
        (Except.error "network down") =
      Except.error EncodingFailure.invalidDataUrl := rfl

/-- C3 as amended: once the encoding step has succeeded,
`identifyClothingItems` never fails — a rejected remote call, an absent
response text, an unparsable response and a missing list field all degrade
to the empty sequence; but a failure of the encoding step itself (an
unreadable or malformed source file) propagates as an error (see the
counterexample). -/
theorem identifyClothingItems_no_throw_after_encoding
    (read : Except String String)
    (net : Except String GenerateContentResponse) (part : InlineData)
    (henc : fileToPart read = .ok part) :
    (∃ v, identifyClothingItems read net = .ok v) ∧
    (∀ e, net = .error e →
      identifyClothingItems read net = .ok (Json.arr [])) ∧
    (∀ resp, net = .ok resp → resp.text = none →
      identifyClothingItems read net = .ok (Json.arr [])) ∧
    (∀ resp t, net = .ok resp → resp.text = some t →
      jsonParse (stripCodeFences (jsTrim t)) = none →
      identifyClothingItems read net = .ok (Json.arr [])) ∧
    (∀ resp t fields, net = .ok resp → resp.text = some t →
      jsonParse (stripCodeFences (jsTrim t)) = some (.obj fields) →
      lookupLastField fields "clothing_items" = none →
      identifyClothingItems read net = .ok (Json.arr [])) := by
  refine ⟨?_, ?_, ?_, ?_, ?_⟩
  · cases net with
    | error e => exact ⟨Json.arr [], by simp [identifyClothingItems, henc]⟩
    | ok resp =>
      cases h : resp.text with
      | none => exact ⟨Json.arr [], by simp [identifyClothingItems, henc, h]⟩
      | some t =>
        exact ⟨interpretIdentification t,
          by simp [identifyClothingItems, henc, h]⟩
  · intro e he
    subst he
    simp [identifyClothingItems, henc]
  · intro resp hn ht
    subst hn
    simp [identifyClothingItems, henc, ht]
  · intro resp t hn ht hp
    subst hn
    simp [identifyClothingItems, henc, ht, interpretIdentification, hp]
  · intro resp t fields hn ht hp hf
    subst hn
    simp [identifyClothingItems, henc, ht, interpretIdentification, hp, hf]

/-- Witness for C3's amended theorem: a concrete good read together with a
failing network call yields the empty sequence. -/
theorem identifyClothingItems_no_throw_after_encoding_witness :
    identifyClothingItems (Except.ok "data:image/png;base64,AAA")
        (Except.error "network down") = .ok (Json.arr []) :=
  (identifyClothingItems_no_throw_after_encoding
      (Except.ok "data:image/png;base64,AAA") (Except.error "network down")
      ⟨"image/png", "AAA"⟩ rfl).2.1 "network down" rfl

/-! ## C4 -/

/-- C4: for every envelope with no (truthy) block reason and no inline
image part, `handleApiResponse` fails with the abnormal-stop error carrying
the completion-status code exactly when that code is present and differs
from `STOP`; otherwise it fails with the no-image error, whose message
embeds the envelope's trimmed text feedback when that is present and
non-empty.  The hypothesis `hwf` records that the SDK's finish reason is an
enum value, never the (JavaScript-falsy) empty string. -/
theorem handleApiResponse_abnormal_or_no_image
    (r : GenerateContentResponse) (ctx : String)
    (hb : jsTruthyStr (blockReasonOf r) = false)
    (hi : findImageInlineData r = none)
    (hwf : finishReasonOf r ≠ some "") :
    (∀ fr, handleApiResponse r ctx = .error (.abnormalStop fr ctx) ↔
      (finishReasonOf r = some fr ∧ fr ≠ "STOP")) ∧
    ((finishReasonOf r = none ∨ finishReasonOf r = some "STOP") →
      handleApiResponse r ctx =
        .error (.noImage (noImageMessage ctx (r.text.map jsTrim))) ∧
      ∀ t, r.text = some t → jsTrim t ≠ "" →
        containsSeq (jsTrim t).data
          (noImageMessage ctx (r.text.map jsTrim)).data) := by
  have hmsg : ∀ t, r.text = some t → jsTrim t ≠ "" →
      containsSeq (jsTrim t).data
        (noImageMessage ctx (r.text.map jsTrim)).data := by
    intro t ht hne
    rw [ht]
    have hm : noImageMessage ctx (Option.map jsTrim (some t)) =
        "The AI model did not return an image for the " ++ ctx ++ ". " ++
          ("The model responded with text: \"" ++ jsTrim t ++ "\"") := by
      simp [noImageMessage, hne]
    rw [hm]
    apply containsSeq_append_left
    apply containsSeq_append_right
    exact containsSeq_data_right _ _
  cases hfr : finishReasonOf r with
  | none =>
    have hres : handleApiResponse r ctx =
        .error (.noImage (noImageMessage ctx (r.text.map jsTrim))) := by
      unfold handleApiResponse
      rw [hb, hi, hfr]
      rfl
    refine ⟨?_, fun _ => ⟨hres, hmsg⟩⟩
    intro fr
    rw [hres]
    constructor
    · intro h
      exact absurd h (by simp)
    · rintro ⟨h1, _⟩
      exact absurd h1 (by simp)
  | some fr0 =>
    have hfr0ne : fr0 ≠ "" := fun h => hwf (h ▸ hfr)
    by_cases hstop : fr0 = "STOP"
    · subst hstop
      have hres : handleApiResponse r ctx =
          .error (.noImage (noImageMessage ctx (r.text.map jsTrim))) := by
        unfold handleApiResponse
        rw [hb, hi, hfr]
        simp
      refine ⟨?_, fun _ => ⟨hres, hmsg⟩⟩
      intro fr
      rw [hres]
      constructor
      · intro h
        exact absurd h (by simp)
      · rintro ⟨h1, h2⟩
        injection h1 with h3
        exact absurd h3.symm h2
    · have hres : handleApiResponse r ctx =
          .error (.abnormalStop fr0 ctx) := by
        unfold handleApiResponse
        rw [hb, hi, hfr]
        simp [hfr0ne, hstop]
      constructor
      · intro fr
        rw [hres]
        constructor
        · intro h
          injection h with h'
          injection h' with h1 h2
          exact ⟨by rw [h1], h1 ▸ hstop⟩
        · rintro ⟨h1, _⟩
          injection h1 with h3
          rw [h3]
      · intro hcase
        exfalso
        rcases hcase with h | h
        · exact absurd h (by simp)
        · injection h with h3
          exact hstop h3

/-- Witness for C4 at a concrete envelope with no block reason, no image
part and finish reason `MAX_TOKENS`. -/
theorem handleApiResponse_abnormal_or_no_image_witness :
    handleApiResponse ⟨none, some [⟨none, some "MAX_TOKENS"⟩], none⟩ "edit" =
      .error (.abnormalStop "MAX_TOKENS" "edit") :=
  ((handleApiResponse_abnormal_or_no_image
      ⟨none, some [⟨none, some "MAX_TOKENS"⟩], none⟩ "edit" rfl rfl
      (by decide)).1 "MAX_TOKENS").mpr ⟨rfl, by decide⟩

/-! ## C9 -/

theorem splitOnChar_ne_nil (b : List Char) (c : Char) : splitOnChar b c ≠ [] := by
  cases b with
  | nil => simp [splitOnChar]
  | cons x xs =>
    simp only [splitOnChar]
    split
    · simp
    · split <;> simp

theorem splitOnChar_no_sep (a : List Char) (c : Char) (h : ∀ x ∈ a, x ≠ c) :
    splitOnChar a c = [a] := by
  induction a with
  | nil => rfl
  | cons x xs ih =>
    have hx : x ≠ c := h x (by simp)
    have hxs := ih (fun y hy => h y (by simp [hy]))
    simp [splitOnChar, hxs, hx]

theorem splitOnChar_append_sep (a b : List Char) (c : Char)
    (h : ∀ x ∈ a, x ≠ c) :
    splitOnChar (a ++ c :: b) c = a :: splitOnChar b c := by
  induction a with
  | nil =>
    cases hsp : splitOnChar b c with
    | nil => exact absurd hsp (splitOnChar_ne_nil b c)
    | cons seg segs => simp [splitOnChar, hsp]
  | cons x xs ih =>
    have hx : x ≠ c := h x (by simp)
    have hxs := ih (fun y hy => h y (by simp [hy]))
    simp [splitOnChar, hxs, hx]

theorem semiGroupAfterColon_clean (m rest : List Char)
    (h : ∀ x ∈ m, x ≠ ';' ∧ x ≠ '\n') :
    semiGroupAfterColon (m ++ ';' :: rest) = some m := by
  induction m with
  | nil => simp [semiGroupAfterColon]
  | cons x xs ih =>
    obtain ⟨h1, h2⟩ := h x (by simp)
    have hxs := ih (fun y hy => h y (by simp [hy]))
    simp [semiGroupAfterColon, h1, h2, hxs]

theorem mimeMatchFrom_header (m tail : List Char)
    (h : ∀ x ∈ m, x ≠ ';' ∧ x ≠ '\n') :
    mimeMatchFrom
        ('d' :: 'a' :: 't' :: 'a' :: ':' :: (m ++ ';' :: tail)) = some m := by
  have hg := semiGroupAfterColon_clean m tail h
  simp [mimeMatchFrom, hg]

/-- C9: the contract of `fileToPart`.  It fails with the read error when
the source cannot be read; on a read data URL it fails with the
invalid-data-URL error exactly when the comma split yields fewer than two
segments, fails with the MIME error exactly when the header's
`:(.*?);` match is missing or empty, and otherwise returns the encoded
part pairing the first payload segment with the matched media type.  In
particular, on a well-formed data URL `data:<mime>;base64,<payload>` it
returns exactly the media type and the base64 payload. -/
theorem fileToPart_contract (read : Except String String) :
    (∀ e, read = .error e → fileToPart read = .error (.readError e)) ∧
    (∀ du, read = .ok du →
      ((splitOnChar du.data ',').length < 2 →
        fileToPart read = .error .invalidDataUrl) ∧
      (¬ (splitOnChar du.data ',').length < 2 →
        mimeMatchFrom ((splitOnChar du.data ',').headD []) = none →
        fileToPart read = .error .noMimeType) ∧
      (¬ (splitOnChar du.data ',').length < 2 →
        mimeMatchFrom ((splitOnChar du.data ',').headD []) = some [] →
        fileToPart read = .error .noMimeType) ∧
      (∀ g, ¬ (splitOnChar du.data ',').length < 2 →
        mimeMatchFrom ((splitOnChar du.data ',').headD []) = some g →
        g ≠ [] →
        fileToPart read = .ok ⟨String.mk g,
          String.mk (((splitOnChar du.data ',').drop 1).headD [])⟩)) ∧
    (∀ m p : List Char, m ≠ [] →
      (∀ x ∈ m, x ≠ ';' ∧ x ≠ '\n' ∧ x ≠ ',') →
      (∀ x ∈ p, x ≠ ',') →
      read = .ok (String.mk ("data:".data ++ m ++ ";base64,".data ++ p)) →
      fileToPart read = .ok ⟨String.mk m, String.mk p⟩) := by
  refine ⟨?_, ?_, ?_⟩
  · intro e he
    subst he
    rfl
  · intro du hdu
    subst hdu
    refine ⟨?_, ?_, ?_, ?_⟩
    · intro h
      simp [fileToPart, h]
    · intro h hm
      simp only [List.headD_eq_head?_getD] at hm
      simp [fileToPart, h, hm]
    · intro h hm
      simp only [List.headD_eq_head?_getD] at hm
      simp [fileToPart, h, hm]
    · intro g h hm hg
      simp only [List.headD_eq_head?_getD] at hm
      simp [fileToPart, h, hm, hg]
  · intro m p hm hclean hp hre
    subst hre
    have hdrNoComma : ∀ x ∈ ('d' :: 'a' :: 't' :: 'a' :: ':' ::
        (m ++ ';' :: ['b', 'a', 's', 'e', '6', '4'])), x ≠ ',' := by
      intro x hx hcomma
      subst hcomma
      simp only [List.mem_cons, List.mem_append, List.not_mem_nil, or_false] at hx
      rcases hx with h | h | h | h | h | hm2 | h | h | h | h | h | h | h
      · exact absurd h (by decide)
      · exact absurd h (by decide)
      · exact absurd h (by decide)
      · exact absurd h (by decide)
      · exact absurd h (by decide)
      · exact (hclean ',' hm2).2.2 rfl
      · exact absurd h (by decide)
      · exact absurd h (by decide)
      · exact absurd h (by decide)
      · exact absurd h (by decide)
      · exact absurd h (by decide)
      · exact absurd h (by decide)
      · exact absurd h (by decide)
    have hassoc : ('d' :: 'a' :: 't' :: 'a' :: ':' ::
        (m ++ ';' :: 'b' :: 'a' :: 's' :: 'e' :: '6' :: '4' :: ',' :: p)) =
        ('d' :: 'a' :: 't' :: 'a' :: ':' ::
          (m ++ ';' :: ['b', 'a', 's', 'e', '6', '4'])) ++ ',' :: p := by
      simp
    have hsplit2 : splitOnChar
        ('d' :: 'a' :: 't' :: 'a' :: ':' ::
          (m ++ ';' :: 'b' :: 'a' :: 's' :: 'e' :: '6' :: '4' :: ',' :: p)) ',' =
        [('d' :: 'a' :: 't' :: 'a' :: ':' ::
          (m ++ ';' :: ['b', 'a', 's', 'e', '6', '4'])), p] := by
      rw [hassoc, splitOnChar_append_sep _ _ _ hdrNoComma,
        splitOnChar_no_sep p ',' hp]
    have hmime : mimeMatchFrom
        ('d' :: 'a' :: 't' :: 'a' :: ':' ::
          (m ++ ';' :: ['b', 'a', 's', 'e', '6', '4'])) = some m :=
      mimeMatchFrom_header m _ (fun x hx => ⟨(hclean x hx).1, (hclean x hx).2.1⟩)
    simp [fileToPart, hsplit2, hmime, hm]

/-- Witness for C9 at a concrete well-formed data URL. -/
theorem fileToPart_contract_witness :
    fileToPart (Except.ok "data:image/png;base64,AAA") =
      Except.ok ⟨"image/png", "AAA"⟩ :=
  (fileToPart_contract (Except.ok "data:image/png;base64,AAA")).2.2
    "image/png".data "AAA".data (by decide) (by decide) (by decide) rfl

/-! ## C8 -/

/-- C8: in the items-ready state, toggling a label appends it when absent
and removes it when present; toggling the same label twice restores the
previous selection (exactly when it was absent, and as a selection — same
members — in general); the Apply Swap button is disabled exactly when the
selection is empty or `isLoading` holds; and confirming with a held source
and a non-empty selection invokes the completion callback exactly once,
with the uploaded source file and the current selection. -/
theorem swapPanel_toggle_disable_apply :
    (∀ l prev, l ∉ prev → handleToggleItem l prev = prev ++ [l]) ∧
    (∀ l prev, l ∈ prev →
      handleToggleItem l prev = prev.filter (fun item => item != l)) ∧
    (∀ l prev, l ∉ prev → handleToggleItem l (handleToggleItem l prev) = prev) ∧
    (∀ l prev x, x ∈ handleToggleItem l (handleToggleItem l prev) ↔ x ∈ prev) ∧
    (∀ isLoading sel, applyButtonDisabled isLoading sel = true ↔
      (isLoading = true ∨ sel = [])) ∧
    (∀ s f u, s.clothingSource = some (f, u) → s.selectedItems ≠ [] →
      stepPanel s .applyClick = (s, [.applySwapCall f s.selectedItems])) := by
  have htoggle_out : ∀ (l : String) (prev : List String), l ∉ prev →
      handleToggleItem l prev = prev ++ [l] := by
    intro l prev h
    simp [handleToggleItem, h]
  have htoggle_in : ∀ (l : String) (prev : List String), l ∈ prev →
      handleToggleItem l prev = prev.filter (fun item => item != l) := by
    intro l prev h
    simp [handleToggleItem, h]
  refine ⟨htoggle_out, htoggle_in, ?_, ?_, ?_, ?_⟩
  · intro l prev h
    rw [htoggle_out l prev h]
    have hmem : l ∈ prev ++ [l] := by simp
    rw [htoggle_in l _ hmem]
    rw [List.filter_append]
    have h1 : prev.filter (fun item => item != l) = prev := by
      apply List.filter_eq_self.mpr
      intro a ha
      simp only [bne_iff_ne]
      exact fun hx => h (hx ▸ ha)
    have h2 : [l].filter (fun item => item != l) = [] := by simp
    rw [h1, h2, List.append_nil]
  · intro l prev x
    by_cases h : l ∈ prev
    · rw [htoggle_in l prev h]
      have hl : l ∉ prev.filter (fun item => item != l) := by simp
      rw [htoggle_out l _ hl]
      simp only [List.mem_append, List.mem_filter, List.mem_singleton,
        bne_iff_ne]
      constructor
      · rintro (⟨hx, _⟩ | rfl)
        · exact hx
        · exact h
      · intro hx
        by_cases hxl : x = l
        · exact Or.inr hxl
        · exact Or.inl ⟨hx, hxl⟩
    · rw [htoggle_out l prev h]
      have hmem : l ∈ prev ++ [l] := by simp
      rw [htoggle_in l _ hmem, List.filter_append]
      have h1 : prev.filter (fun item => item != l) = prev := by
        apply List.filter_eq_self.mpr
        intro a ha
        simp only [bne_iff_ne]
        exact fun hx => h (hx ▸ ha)
      have h2 : [l].filter (fun item => item != l) = [] := by simp
      rw [h1, h2, List.append_nil]
  · intro isLoading sel
    cases isLoading <;> simp [applyButtonDisabled, List.length_eq_zero]
  · intro s f u hsrc hsel
    simp [stepPanel, handleApply, hsrc, List.isEmpty_iff, hsel]

/-- Witness for C8: the spec's scenario — toggling "shirt" on then off
restores the empty selection, and applying with source file `0` (URL `1`)
and selection `["shorts"]` invokes the callback with exactly those. -/
theorem swapPanel_toggle_disable_apply_witness :
    handleToggleItem "shirt" (handleToggleItem "shirt" []) = [] ∧
    handleToggleItem "shirt" ["shirt", "shorts"] = ["shorts"] ∧
    (applyButtonDisabled false [] = true ↔ (false = true ∨ ([] : List String) = [])) ∧
    stepPanel ⟨some (0, 1), ["shirt", "shorts"], ["shorts"], false, none⟩
        .applyClick =
      (⟨some (0, 1), ["shirt", "shorts"], ["shorts"], false, none⟩,
        [.applySwapCall 0 ["shorts"]]) :=
  ⟨swapPanel_toggle_disable_apply.2.2.1 "shirt" [] (by decide),
   swapPanel_toggle_disable_apply.2.1 "shirt" ["shirt", "shorts"] (by decide),
   swapPanel_toggle_disable_apply.2.2.2.2.1 false [],
   swapPanel_toggle_disable_apply.2.2.2.2.2
     ⟨some (0, 1), ["shirt", "shorts"], ["shorts"], false, none⟩ 0 1 rfl
     (by decide)⟩

/-! ## C7 -/

theorem revCount_nil (u : Nat) : revCount [] u = 0 := rfl

theorem revCount_append (a b : List PanelAction) (u : Nat) :
    revCount (a ++ b) u = revCount a u + revCount b u := by
  simp [revCount, List.countP_append]

theorem revCount_create (v u : Nat) (l : List PanelAction) :
    revCount (.createObjectURL v :: l) u = revCount l u := by
  simp [revCount, List.countP_cons]

theorem revCount_identify (f : Nat) (u : Nat) (l : List PanelAction) :
    revCount (.identifyCall f :: l) u = revCount l u := by
  simp [revCount, List.countP_cons]

theorem revCount_applySwap (f : Nat) (items : List String) (u : Nat)
    (l : List PanelAction) :
    revCount (.applySwapCall f items :: l) u = revCount l u := by
  simp [revCount, List.countP_cons]

theorem revCount_revoke (v u : Nat) (l : List PanelAction) :
    revCount (.revokeObjectURL v :: l) u =
      revCount l u + (if v = u then 1 else 0) := by
  by_cases h : v = u <;> simp [revCount, List.countP_cons, h]

theorem revCount_handleApply (cs : Option (Nat × Nat)) (sel : List String)
    (u : Nat) : revCount (handleApply cs sel) u = 0 := by
  cases cs with
  | none => rfl
  | some s =>
    by_cases h : sel.isEmpty <;> simp [handleApply, h, revCount, List.countP_cons]

theorem revCount_cleanup_ne (old new : Option (Nat × Nat)) (u : Nat)
    (h : ∀ f₀ u₀, old = some (f₀, u₀) → u₀ ≠ u) :
    revCount (cleanupEffect old new) u = 0 := by
  unfold cleanupEffect
  split
  · rfl
  · cases hold : old with
    | none => rfl
    | some s =>
      have := h s.1 s.2 (by rw [hold])
      simp [revCount, List.countP_cons, this]

theorem cleanupEffect_none (new : Option (Nat × Nat)) :
    cleanupEffect none new = [] := by
  unfold cleanupEffect
  split <;> rfl

theorem cleanupEffect_some (f₀ u₀ : Nat) (new : Option (Nat × Nat))
    (h : some (f₀, u₀) ≠ new) :
    cleanupEffect (some (f₀, u₀)) new = [.revokeObjectURL u₀] := by
  unfold cleanupEffect
  rw [if_neg h]

theorem stepPanel_inv (A : List Nat) (s : PanelState) (acts : List PanelAction)
    (e : PanelEvent) (hinv : PanelInv A s acts)
    (hfresh : ∀ u, u ∈ allocatedUrls [e] → u ∉ A) :
    PanelInv (A ++ allocatedUrls [e]) (stepPanel s e).1
      (acts ++ (stepPanel s e).2) := by
  obtain ⟨h1, h2, h3⟩ := hinv
  cases e with
  | toggleItem item =>
    have ha : allocatedUrls [PanelEvent.toggleItem item] = [] := rfl
    rw [ha, List.append_nil]
    have hstep : stepPanel s (.toggleItem item) =
        (⟨s.clothingSource, s.identifiedItems,
          handleToggleItem item s.selectedItems, s.isIdentifying, s.error⟩,
         []) := rfl
    rw [hstep, List.append_nil]
    exact ⟨h1, h2, h3⟩
  | applyClick =>
    have ha : allocatedUrls [PanelEvent.applyClick] = [] := rfl
    rw [ha, List.append_nil]
    have hstep : stepPanel s .applyClick =
        (s, handleApply s.clothingSource s.selectedItems) := rfl
    rw [hstep]
    refine ⟨fun u hu => ⟨(h1 u hu).1, ?_⟩, fun u hA hne => ?_, fun u hA => ?_⟩
    · rw [revCount_append, revCount_handleApply, Nat.add_zero]
      exact (h1 u hu).2
    · rw [revCount_append, revCount_handleApply, Nat.add_zero]
      exact h2 u hA hne
    · rw [revCount_append, revCount_handleApply, Nat.add_zero]
      exact h3 u hA
  | resetClick =>
    have ha : allocatedUrls [PanelEvent.resetClick] = [] := rfl
    rw [ha, List.append_nil]
    cases hs : s.clothingSource with
    | none =>
      have hstep : stepPanel s .resetClick = (initialPanel, []) := by
        simp [stepPanel, hs, cleanupEffect_none]
      rw [hstep, List.append_nil]
      refine ⟨fun u hu => absurd hu (by simp [heldUrl, initialPanel]),
        fun u hA _ => ?_, h3⟩
      exact h2 u hA (by simp [heldUrl, hs])
    | some pr =>
      obtain ⟨f₀, u₀⟩ := pr
      have hu₀held : heldUrl s = some u₀ := by simp [heldUrl, hs]
      have hu₀A : u₀ ∈ A := (h1 u₀ hu₀held).1
      have hu₀0 : revCount acts u₀ = 0 := (h1 u₀ hu₀held).2
      have hstep : stepPanel s .resetClick =
          (initialPanel,
           [.revokeObjectURL u₀, .revokeObjectURL u₀]) := by
        simp [stepPanel, hs, cleanupEffect_some f₀ u₀ none (by simp)]
      rw [hstep]
      refine ⟨fun u hu => absurd hu (by simp [heldUrl, initialPanel]),
        fun u hA _ => ?_, fun u hA => ?_⟩
      · simp only [revCount_append, revCount_revoke, revCount_nil]
        by_cases hu' : u₀ = u
        · subst hu'
          rw [hu₀0]
          simp
        · have hb := h2 u hA (by simp [heldUrl, hs]; exact hu')
          simp only [if_neg hu']
          omega
      · have hne0 : u₀ ≠ u := fun h => hA (h ▸ hu₀A)
        simp only [revCount_append, revCount_revoke, revCount_nil,
          if_neg hne0]
        rw [h3 u hA]
  | fileSelect files u' outcome =>
    cases files with
    | none =>
      have ha : allocatedUrls [PanelEvent.fileSelect none u' outcome] = [] :=
        rfl
      rw [ha, List.append_nil]
      have hstep : stepPanel s (.fileSelect none u' outcome) = (s, []) := rfl
      rw [hstep, List.append_nil]
      exact ⟨h1, h2, h3⟩
    | some fl =>
      cases fl with
      | nil =>
        have ha :
            allocatedUrls [PanelEvent.fileSelect (some []) u' outcome] = [] :=
          rfl
        rw [ha, List.append_nil]
        have hstep : stepPanel s (.fileSelect (some []) u' outcome) =
            (s, []) := rfl
        rw [hstep, List.append_nil]
        exact ⟨h1, h2, h3⟩
      | cons f rest =>
        have ha : allocatedUrls
            [PanelEvent.fileSelect (some (f :: rest)) u' outcome] = [u'] := rfl
        rw [ha]
        have hufresh : u' ∉ A := hfresh u' (by rw [ha]; simp)
        have hcl1 : ∀ u, heldUrl s ≠ some u →
            revCount (cleanupEffect s.clothingSource (some (f, u'))) u = 0 := by
          intro u hne
          apply revCount_cleanup_ne
          intro f₀ u₀ hold heq
          exact hne (by simp [heldUrl, hold, heq])
        have hcl2 : ∀ u, heldUrl s = some u →
            revCount (cleanupEffect s.clothingSource (some (f, u'))) u = 1 := by
          intro u hheld
          unfold heldUrl at hheld
          cases hs : s.clothingSource with
          | none =>
            rw [hs] at hheld
            simp at hheld
          | some pr =>
            obtain ⟨f₀, u₀⟩ := pr
            rw [hs] at hheld
            simp at hheld
            subst hheld
            have huA : u₀ ∈ A := (h1 u₀ (by simp [heldUrl, hs])).1
            have hneq : u₀ ≠ u' := fun h => hufresh (h ▸ huA)
            rw [cleanupEffect_some f₀ u₀ (some (f, u')) (by simp [hneq]),
              revCount_revoke, revCount_nil]
            simp
        have hheldfresh : heldUrl s ≠ some u' := by
          intro h
          exact hufresh (h1 u' h).1
        cases outcome with
        | ok items =>
          by_cases hlen : items.length > 0
          · have hstep : stepPanel s
                (.fileSelect (some (f :: rest)) u' (.ok items)) =
                (⟨some (f, u'), items, [], false, none⟩,
                 [PanelAction.createObjectURL u', PanelAction.identifyCall f]
                   ++ cleanupEffect s.clothingSource (some (f, u'))) := by
              simp [stepPanel, hlen]
            rw [hstep]
            refine ⟨fun u hu => ?_, fun u hA hne => ?_, fun u hA => ?_⟩
            · have huu : u = u' := by
                have h' : (some u' : Option Nat) = some u := hu
                exact (Option.some.inj h').symm
              subst huu
              refine ⟨by simp, ?_⟩
              simp only [revCount_append, revCount_create, revCount_identify,
                revCount_nil]
              rw [h3 u hufresh, hcl1 u hheldfresh]
            · have huA : u ∈ A := by
                rcases List.mem_append.mp hA with h | h
                · exact h
                · exfalso
                  have h' : u = u' := by simpa using h
                  exact hne (by simp [heldUrl, h'])
              simp only [revCount_append, revCount_create, revCount_identify,
                revCount_nil]
              by_cases hheld : heldUrl s = some u
              · rw [(h1 u hheld).2, hcl2 u hheld]
                omega
              · have hb := h2 u huA hheld
                rw [hcl1 u hheld]
                omega
            · have huA : u ∉ A := fun h => hA (by simp [h])
              have hheld : heldUrl s ≠ some u := by
                intro h
                exact huA (h1 u h).1
              simp only [revCount_append, revCount_create, revCount_identify,
                revCount_nil]
              rw [h3 u huA, hcl1 u hheld]
          · have hstep : stepPanel s
                (.fileSelect (some (f :: rest)) u' (.ok items)) =
                (⟨none, [], [], false, some identifyEmptyError⟩,
                 ([PanelAction.createObjectURL u', PanelAction.identifyCall f]
                   ++ cleanupEffect s.clothingSource (some (f, u')))
                   ++ [PanelAction.revokeObjectURL u']
                   ++ [PanelAction.revokeObjectURL u']) := by
              simp [stepPanel, hlen,
                cleanupEffect_some f u' none (by simp)]
            rw [hstep]
            refine ⟨fun u hu => absurd hu (by simp [heldUrl]),
              fun u hA hne => ?_, fun u hA => ?_⟩
            · simp only [revCount_append, revCount_create, revCount_identify,
                revCount_revoke, revCount_nil]
              rcases List.mem_append.mp hA with huA | hu'
              · have hneu : u ≠ u' := fun h => hufresh (h ▸ huA)
                rw [if_neg (fun h => hneu h.symm)]
                by_cases hheld : heldUrl s = some u
                · rw [(h1 u hheld).2, hcl2 u hheld]
                  omega
                · have hb := h2 u huA hheld
                  rw [hcl1 u hheld]
                  omega
              · have huu : u = u' := by simpa using hu'
                subst huu
                rw [if_pos rfl, h3 u hufresh, hcl1 u hheldfresh]
                omega
            · have huA : u ∉ A := fun h => hA (by simp [h])
              have hne' : u ≠ u' := fun h => hA (by simp [h])
              have hheld : heldUrl s ≠ some u := by
                intro h
                exact huA (h1 u h).1
              simp only [revCount_append, revCount_create, revCount_identify,
                revCount_revoke, revCount_nil]
              rw [if_neg (fun h => hne' h.symm), h3 u huA, hcl1 u hheld]
        | error err =>
          have hstep : stepPanel s
              (.fileSelect (some (f :: rest)) u' (.error err)) =
              (⟨none, [], [], false, some identifyFailError⟩,
               ([PanelAction.createObjectURL u', PanelAction.identifyCall f]
                 ++ cleanupEffect s.clothingSource (some (f, u')))
                 ++ [PanelAction.revokeObjectURL u']
                 ++ [PanelAction.revokeObjectURL u']) := by
            simp [stepPanel, cleanupEffect_some f u' none (by simp)]
          rw [hstep]
          refine ⟨fun u hu => absurd hu (by simp [heldUrl]),
            fun u hA hne => ?_, fun u hA => ?_⟩
          · simp only [revCount_append, revCount_create, revCount_identify,
              revCount_revoke, revCount_nil]
            rcases List.mem_append.mp hA with huA | hu'
            · have hneu : u ≠ u' := fun h => hufresh (h ▸ huA)
              rw [if_neg (fun h => hneu h.symm)]
              by_cases hheld : heldUrl s = some u
              · rw [(h1 u hheld).2, hcl2 u hheld]
                omega
              · have hb := h2 u huA hheld
                rw [hcl1 u hheld]
                omega
            · have huu : u = u' := by simpa using hu'
              subst huu
              rw [if_pos rfl, h3 u hufresh, hcl1 u hheldfresh]
              omega
          · have huA : u ∉ A := fun h => hA (by simp [h])
            have hne' : u ≠ u' := fun h => hA (by simp [h])
            have hheld : heldUrl s ≠ some u := by
              intro h
              exact huA (h1 u h).1
            simp only [revCount_append, revCount_create, revCount_identify,
              revCount_revoke, revCount_nil]
            rw [if_neg (fun h => hne' h.symm), h3 u huA, hcl1 u hheld]

theorem allocatedUrls_cons (e : PanelEvent) (es : List PanelEvent) :
    allocatedUrls (e :: es) = allocatedUrls [e] ++ allocatedUrls es := by
  cases e with
  | fileSelect files u outcome =>
    cases files with
    | none => rfl
    | some fl =>
      cases fl with
      | nil => rfl
      | cons f rest => rfl
  | toggleItem i => rfl
  | applyClick => rfl
  | resetClick => rfl

theorem runPanel_inv (es : List PanelEvent) :
    ∀ (A : List Nat) (s : PanelState) (acts : List PanelAction),
      PanelInv A s acts →
      (∀ u, u ∈ allocatedUrls es → u ∉ A) →
      (allocatedUrls es).Nodup →
      PanelInv (A ++ allocatedUrls es) (runPanel s es).1
        (acts ++ (runPanel s es).2) := by
  induction es with
  | nil =>
    intro A s acts hinv _ _
    have ha : allocatedUrls ([] : List PanelEvent) = [] := rfl
    have hr : runPanel s [] = (s, []) := rfl
    rw [ha, hr, List.append_nil, List.append_nil]
    exact hinv
  | cons e es ih =>
    intro A s acts hinv hdisj hnodup
    have hsplit := allocatedUrls_cons e es
    have hstep := stepPanel_inv A s acts e hinv
      (fun u hu => hdisj u (by rw [hsplit]; exact List.mem_append.mpr (Or.inl hu)))
    have hdisj' : ∀ u, u ∈ allocatedUrls es → u ∉ A ++ allocatedUrls [e] := by
      intro u hu hmem
      rcases List.mem_append.mp hmem with h | h
      · exact hdisj u (by rw [hsplit]; exact List.mem_append.mpr (Or.inr hu)) h
      · rw [hsplit] at hnodup
        exact (List.nodup_append.mp hnodup).2.2 h hu
    have hnodup' : (allocatedUrls es).Nodup := by
      rw [hsplit] at hnodup
      exact (List.nodup_append.mp hnodup).2.1
    have hrec := ih (A ++ allocatedUrls [e]) (stepPanel s e).1
      (acts ++ (stepPanel s e).2) hstep hdisj' hnodup'
    have hrun1 : (runPanel s (e :: es)).1 =
        (runPanel (stepPanel s e).1 es).1 := rfl
    have hrun2 : (runPanel s (e :: es)).2 =
        (stepPanel s e).2 ++ (runPanel (stepPanel s e).1 es).2 := rfl
    rw [hsplit, hrun1, hrun2, ← List.append_assoc, ← List.append_assoc]
    exact hrec

/-- C7 as amended: over every sequential execution (with fresh object
URLs), every display handle allocated on entering the identifying state is
revoked at least once by the end of the run plus teardown — none is leaked
— and none is revoked more than twice.  The claim's "exactly once" fails:
on the transition to the failed state and on explicit reset the handle is
revoked twice, once explicitly by the handler and once by the effect
cleanup reacting to the nulled source (see the counterexample). -/
theorem swapPanel_release_bounds (es : List PanelEvent)
    (hnodup : (allocatedUrls es).Nodup) :
    ∀ u, u ∈ allocatedUrls es →
      1 ≤ revCount ((runPanel initialPanel es).2 ++
          unmountActions (runPanel initialPanel es).1) u ∧
      revCount ((runPanel initialPanel es).2 ++
          unmountActions (runPanel initialPanel es).1) u ≤ 2 := by
  have hinit : PanelInv [] initialPanel [] := by
    refine ⟨fun u hu => ?_, fun u hu => absurd hu (by simp), fun u _ => rfl⟩
    simp [heldUrl, initialPanel] at hu
  have hinv := runPanel_inv es [] initialPanel [] hinit
    (fun u _ h => (List.not_mem_nil u) h) hnodup
  rw [List.nil_append, List.nil_append] at hinv
  obtain ⟨h1, h2, h3⟩ := hinv
  intro u hu
  by_cases hheld : heldUrl (runPanel initialPanel es).1 = some u
  · have h0 := (h1 u hheld).2
    rw [revCount_append, h0, Nat.zero_add]
    unfold unmountActions
    unfold heldUrl at hheld
    cases hcs : (runPanel initialPanel es).1.clothingSource with
    | none =>
      rw [hcs] at hheld
      simp at hheld
    | some pr =>
      obtain ⟨f₀, u₀⟩ := pr
      rw [hcs] at hheld
      simp at hheld
      subst hheld
      rw [cleanupEffect_some f₀ u₀ none (by simp), revCount_revoke,
        revCount_nil]
      simp
  · have hb := h2 u hu hheld
    rw [revCount_append]
    have hz : revCount (unmountActions (runPanel initialPanel es).1) u = 0 := by
      unfold unmountActions
      apply revCount_cleanup_ne
      intro f₀ u₀ hold heq
      exact hheld (by simp [heldUrl, hold, heq])
    rw [hz]
    omega

/-- Counterexample for C7: in the run consisting of one upload whose
identification returns zero items, followed by teardown, the allocated
handle is revoked twice — once explicitly on the failure path and once by
the effect cleanup — contradicting "released exactly once". -/
theorem swapPanel_double_release_counterexample :
    1 ∈ allocatedUrls [PanelEvent.fileSelect (some [0]) 1 (Except.ok [])] ∧
    revCount ((runPanel initialPanel
        [PanelEvent.fileSelect (some [0]) 1 (Except.ok [])]).2 ++
      unmountActions (runPanel initialPanel
        [PanelEvent.fileSelect (some [0]) 1 (Except.ok [])]).1) 1 = 2 :=
  ⟨by decide, by decide⟩

/-- Witness for C7's amended theorem at a one-upload trace whose
identification succeeds. -/
theorem swapPanel_release_bounds_witness :
    1 ≤ revCount ((runPanel initialPanel
        [PanelEvent.fileSelect (some [0]) 1 (Except.ok ["shirt"])]).2 ++
      unmountActions (runPanel initialPanel
        [PanelEvent.fileSelect (some [0]) 1 (Except.ok ["shirt"])]).1) 1 ∧
    revCount ((runPanel initialPanel
        [PanelEvent.fileSelect (some [0]) 1 (Except.ok ["shirt"])]).2 ++
      unmountActions (runPanel initialPanel
        [PanelEvent.fileSelect (some [0]) 1 (Except.ok ["shirt"])]).1) 1 ≤ 2 :=
  swapPanel_release_bounds
    [PanelEvent.fileSelect (some [0]) 1 (Except.ok ["shirt"])] (by decide) 1
    (by decide)
